import Mathlib

/-!
# Logentries hook for logrus: a shallow embedding of `logentries.go`

The Go package declares one type, `Logentries`, with the methods `Levels`,
`Fire` and `SetFormatter`, the constructor `NewLogentriesHook` and the
package-level variable `txtFormatter`.

Go values that live behind pointers and can be shared are kept in an explicit
store (`World`): the `logrus.TextFormatter` objects (`heap`), the
`logrus.Logger` objects (`loggers`), the sequence of `Write` calls made on
connections (`wire`), the diagnostic output (`diag`) and the `net.Dial` calls
(`dials`).  A method with a pointer receiver is a function that returns the
receiver after the call next to its results.

What the imported libraries do (rendering an entry, writing on a connection,
dialling) is not part of the package: it is the parameter `Env`, about which
nothing is assumed.  Pointers and interface values are non-nil, and a
`Logentries` value is one whose connection is set.
-/

namespace LogrusLogentries

/-! ## Library types the package uses -/

/-- Modelled from the spec: the severities of `logrus.Level`, whose declaration
is in the logrus library; the constants are listed from the most severe to the
least severe, as the package names them in `NewLogentriesHook`. -/
inductive Level where
  | PanicLevel
  | FatalLevel
  | ErrorLevel
  | WarnLevel
  | InfoLevel
  | DebugLevel
  deriving DecidableEq, Repr

/-- The numeric value of a severity constant: smaller is more severe. -/
def Level.rank : Level → Nat
  | .PanicLevel => 0
  | .FatalLevel => 1
  | .ErrorLevel => 2
  | .WarnLevel => 3
  | .InfoLevel => 4
  | .DebugLevel => 5

/-- A non-nil Go `error`; `msg` is what its `Error()` method returns. -/
structure GoError where
  msg : String
  deriving DecidableEq, Repr

/-- An address in a store. -/
abbrev Addr := Nat

/-- A connection handle (`net.Conn`). -/
abbrev Conn := Nat

/-- Modelled from the spec: the plain-text renderer `logrus.TextFormatter`, whose
declaration is in the logrus library.  The package names one option,
`DisableColors`; all the other options of the object are the one value
`others`, which is `0` when each of them has its zero value. -/
structure TextFormatter where
  DisableColors : Bool
  others : Nat
  deriving DecidableEq, Repr

/-- Modelled from the spec: a value of the interface type `logrus.Formatter`,
the renderer of the host pipeline: either a pointer to a
`TextFormatter` object of the store (dynamic type `*logrus.TextFormatter`), or
a value of any other dynamic type, named by a number. -/
inductive Formatter where
  | text (p : Addr)
  | other (k : Nat)
  deriving DecidableEq, Repr

/-- Modelled from the spec: a `logrus.Logger` object, the host pipeline.  The
package names one field, `Formatter`, the active renderer; all the other
fields are the one value `others`. -/
structure Logger where
  Formatter : Formatter
  others : Nat
  deriving DecidableEq, Repr

/-- Modelled from the spec: a `logrus.Entry`, the log record, with its severity,
message, time stamp and structured fields; `Logger` is the pointer to the
logger of the record. -/
structure Entry where
  Logger : Addr
  Data : List (String × String)
  Time : Nat
  Level : Level
  Message : String
  deriving DecidableEq, Repr

/-- A `sync.Mutex` value. -/
structure Mutex where
  locked : Bool
  deriving DecidableEq, Repr

/-- One `Write` call on a connection: the handle and the bytes passed. -/
structure WriteCall where
  conn : Conn
  payload : String
  deriving DecidableEq, Repr

/-- One piece of diagnostic output: a `log.Println` line (without the
time stamp the `log` package puts in front) or text written to `os.Stderr`. -/
inductive Diag where
  | logPrintln (s : String)
  | stderr (s : String)
  deriving DecidableEq, Repr

/-- One `net.Dial` call: network and address. -/
structure DialCall where
  network : String
  address : String
  deriving DecidableEq, Repr

/-! ## The store and the environment -/

/-- The state outside the hook. -/
structure World where
  heap : Addr → TextFormatter
  loggers : Addr → Logger
  wire : List WriteCall
  diag : List Diag
  dials : List DialCall

/-- The behaviour of the imported libraries.
`textFormat c e` is `(*TextFormatter).Format` on an object with options `c`,
`otherFormat k e` is `Format` of the formatter `other k`,
`Write past c b` is `c.Write(b)` after the calls `past`, giving the number of
bytes written and the error, and `Dial past n a` is `net.Dial(n, a)`.
A call of one of them changes nothing in the store but what the package's
functions record of it: the `Write` call on `wire`, the `Dial` call on
`dials`. -/
structure Env where
  textFormat : TextFormatter → Entry → Except GoError String
  otherFormat : Nat → Entry → Except GoError String
  Write : List WriteCall → Conn → String → Int × Option GoError
  Dial : List DialCall → String → String → Except GoError Conn

/-- The rule of `io.Writer` for one `Write` call on the bytes `b` with result
`r`: a call that writes fewer bytes than `b` has returns a non-nil error. -/
def ioWriterRule (b : String) (r : Int × Option GoError) : Prop :=
  r.1 < Int.ofNat b.utf8ByteSize → r.2 ≠ none

instance (b : String) (r : Int × Option GoError) : Decidable (ioWriterRule b r) := by
  unfold ioWriterRule
  infer_instance

/-- `Formatter.Format(entry)` for an interface value, in a store. -/
def Formatter.Format (env : Env) (w : World) (f : Formatter) (entry : Entry) :
    Except GoError String :=
  match f with
  | .text p => env.textFormat (w.heap p) entry
  | .other k => env.otherFormat k entry

/-- `entry.String()` of logrus: the entry rendered by the formatter that the
entry's logger holds at the time of the call. -/
def Entry.String (env : Env) (w : World) (entry : Entry) : Except GoError String :=
  Formatter.Format env w (w.loggers entry.Logger).Formatter entry

/-- The assignment `l.Formatter = f` on the logger object at `l`. -/
def World.setLoggerFormatter (w : World) (l : Addr) (f : Formatter) : World :=
  { w with loggers := Function.update w.loggers l { w.loggers l with Formatter := f } }

/-! ## The package -/

/-- The address of the object `txtFormatter` points to
(`var txtFormatter = &logrus.TextFormatter{DisableColors: true}`). -/
def txtFormatter : Addr := 0

/-- The object the package allocates for `txtFormatter`. -/
def txtFormatterObject : TextFormatter :=
  { DisableColors := true, others := 0 }

/-- The hook (`type Logentries struct`). -/
structure Logentries where
  token : String
  levels : List Level
  lock : Mutex
  formatter : Formatter
  udpConn : Conn
  deriving DecidableEq, Repr

/-- `func (hook *Logentries) Levels() []logrus.Level`: the receiver after the
call and the slice returned. -/
def Logentries.Levels (hook : Logentries) : Logentries × List Level :=
  (hook, hook.levels)

/-- The `switch` at the head of `Fire`: when the logger's formatter is a
`*logrus.TextFormatter`, the logger is given `txtFormatter` and the original
formatter is kept for the deferred function. -/
def Fire_swap (entry : Entry) (w : World) : World × Option Formatter :=
  match (w.loggers entry.Logger).Formatter with
  | .text p => (w.setLoggerFormatter entry.Logger (.text txtFormatter), some (.text p))
  | .other _ => (w, none)

/-- The deferred function of `Fire`, run on every return when it was
registered: `entry.Logger.Formatter = formatter`. -/
def Fire_deferred (entry : Entry) (saved : Option Formatter) (w : World) : World :=
  match saved with
  | some formatter => w.setLoggerFormatter entry.Logger formatter
  | none => w

/-- The result of `entry.String()` as `Fire` calls it, after the `switch`. -/
def Fire_rendered (env : Env) (entry : Entry) (w : World) : Except GoError String :=
  Entry.String env (Fire_swap entry w).1 entry

/-- What a call of `Fire` leaves: the receiver, the store and the error
returned (`none` is `nil`). -/
structure FireResult where
  hook : Logentries
  world : World
  err : Option GoError

/-- `func (hook *Logentries) Fire(entry *logrus.Entry) error`. -/
def Logentries.Fire (env : Env) (hook : Logentries) (entry : Entry) (w : World) : FireResult :=
  let swapped := Fire_swap entry w
  let w1 := swapped.1
  match Entry.String env w1 entry with
  | .error err =>
    let w2 := { w1 with diag := w1.diag ++
      [Diag.logPrintln ("failed to generate string for entry: " ++ err.msg ++ "\n"),
       Diag.stderr ("Failed to generate string for entry: " ++ err.msg)] }
    { hook := hook, world := Fire_deferred entry swapped.2 w2, err := some err }
  | .ok msg =>
    let payload := hook.token ++ " " ++ msg
    let written := env.Write w1.wire hook.udpConn payload
    let w2 := { w1 with wire := w1.wire ++ [{ conn := hook.udpConn, payload := payload }] }
    match written.2 with
    | some err =>
      let w3 := { w2 with diag := w2.diag ++
        [Diag.stderr ("Unable to send log line to Papertrail via UDP. Wrote " ++
          toString written.1 ++ " bytes before error: " ++ err.msg)] }
      { hook := hook, world := Fire_deferred entry swapped.2 w3, err := some err }
    | none =>
      { hook := hook, world := Fire_deferred entry swapped.2 w2, err := none }

/-- `func (hook *Logentries) SetFormatter(formatter logrus.Formatter)`: the
receiver and the store after the call. -/
def Logentries.SetFormatter (hook : Logentries) (formatter : Formatter) (w : World) :
    Logentries × World :=
  let hook1 := { hook with formatter := formatter }
  match hook1.formatter with
  | .text p =>
    (hook1, { w with heap := Function.update w.heap p { w.heap p with DisableColors := true } })
  | .other _ => (hook1, w)

/-- What `NewLogentriesHook` leaves: the hook returned (`none` is `nil`), the
error returned and the store. -/
structure NewResult where
  hook : Option Logentries
  err : Option GoError
  world : World

/-- `func NewLogentriesHook(token string) (*Logentries, error)`. -/
def NewLogentriesHook (env : Env) (token : String) (w : World) : NewResult :=
  let w1 := { w with dials := w.dials ++
    [{ network := "udp", address := "data.logentries.com:10000" }] }
  match env.Dial w.dials "udp" "data.logentries.com:10000" with
  | .error err => { hook := none, err := some err, world := w1 }
  | .ok conn =>
    { hook := some
        { levels := [Level.PanicLevel, Level.FatalLevel, Level.ErrorLevel,
            Level.WarnLevel, Level.InfoLevel, Level.DebugLevel],
          token := token,
          lock := { locked := false },
          formatter := Formatter.text txtFormatter,
          udpConn := conn },
      err := none,
      world := w1 }

/-- The store when the package has been loaded: `txtFormatter` points to its
object, nothing has been written and nothing dialled; every other object has
its zero value. -/
def initWorld : World :=
  { heap := Function.update
      (fun _ => { DisableColors := false, others := 0 })
      txtFormatter txtFormatterObject,
    loggers := fun _ => { Formatter := Formatter.other 0, others := 0 },
    wire := [],
    diag := [],
    dials := [] }

/-! ## Sample data -/

/-- A sample environment: the text formatter prints `level=info msg=...`,
in colour unless colours are disabled; the formatter `other 0` fails and any
other formatter prints the message alone; every write is complete; dialling
succeeds with handle `7`. -/
def sampleEnv : Env :=
  { textFormat := fun c e =>
      if c.DisableColors then .ok ("level=info msg=" ++ e.Message)
      else .ok ("\x1b[36mINFO\x1b[0m " ++ e.Message),
    otherFormat := fun k e =>
      if k = 0 then .error { msg := "unsupported value" } else .ok e.Message,
    Write := fun _ _ b => (Int.ofNat b.length, none),
    Dial := fun _ _ _ => .ok 7 }

/-- The sample environment with a connection whose every write returns the
count `n` and the result `r`. -/
def sampleEnvWrite (n : Int) (r : Option GoError) : Env :=
  { sampleEnv with Write := fun _ _ _ => (n, r) }

/-- A sample store: the logger at `0` holds the text formatter object at `1`,
which has colours enabled; the logger at `1` holds the formatter `other 0` and
the logger at `2` the formatter `other 1`. -/
def sampleWorld : World :=
  { initWorld with
    loggers := Function.update
      (Function.update initWorld.loggers 0
        { Formatter := Formatter.text 1, others := 0 })
      2 { Formatter := Formatter.other 1, others := 0 } }

/-- A sample hook with token `abc123` on the connection `7`. -/
def sampleHook : Logentries :=
  { token := "abc123",
    levels := [Level.PanicLevel, Level.FatalLevel, Level.ErrorLevel,
      Level.WarnLevel, Level.InfoLevel, Level.DebugLevel],
    lock := { locked := false },
    formatter := Formatter.text txtFormatter,
    udpConn := 7 }

/-- A sample record of the logger at `0`. -/
def sampleEntry : Entry :=
  { Logger := 0, Data := [], Time := 0, Level := Level.InfoLevel, Message := "started" }

/-- A sample record of the logger at `1`, whose formatter fails. -/
def sampleEntryFailing : Entry :=
  { Logger := 1, Data := [], Time := 0, Level := Level.InfoLevel, Message := "started" }

/-- A sample record of the logger at `2`, rendered as its message alone, which
with the token `abc123` makes a payload of 20 bytes. -/
def sampleEntryShort : Entry :=
  { Logger := 2, Data := [], Time := 0, Level := Level.InfoLevel, Message := "disk is full!" }

/-- The options of the formatter that the logger at `l` holds, when that is a
text formatter: what the logger's own output is rendered with. -/
def World.loggerFormatterOptions (w : World) (l : Addr) : Option TextFormatter :=
  match (w.loggers l).Formatter with
  | .text p => some (w.heap p)
  | .other _ => none

/-! ## Auxiliary facts about `Fire` -/

theorem Fire_swap_wire (entry : Entry) (w : World) : (Fire_swap entry w).1.wire = w.wire := by
  unfold Fire_swap
  split <;> rfl

theorem Fire_swap_heap (entry : Entry) (w : World) : (Fire_swap entry w).1.heap = w.heap := by
  unfold Fire_swap
  split <;> rfl

theorem Fire_swap_diag (entry : Entry) (w : World) : (Fire_swap entry w).1.diag = w.diag := by
  unfold Fire_swap
  split <;> rfl

theorem Fire_swap_dials (entry : Entry) (w : World) : (Fire_swap entry w).1.dials = w.dials := by
  unfold Fire_swap
  split <;> rfl

theorem Fire_deferred_wire (entry : Entry) (s : Option Formatter) (w : World) :
    (Fire_deferred entry s w).wire = w.wire := by
  cases s <;> rfl

theorem Fire_deferred_heap (entry : Entry) (s : Option Formatter) (w : World) :
    (Fire_deferred entry s w).heap = w.heap := by
  cases s <;> rfl

theorem Fire_deferred_diag (entry : Entry) (s : Option Formatter) (w : World) :
    (Fire_deferred entry s w).diag = w.diag := by
  cases s <;> rfl

theorem Fire_deferred_dials (entry : Entry) (s : Option Formatter) (w : World) :
    (Fire_deferred entry s w).dials = w.dials := by
  cases s <;> rfl

/-- The deferred function undoes the swap: whatever happened to the other
parts of the store in between, the loggers are those of before the call. -/
theorem Fire_deferred_swap_loggers (entry : Entry) (w w2 : World)
    (h : w2.loggers = (Fire_swap entry w).1.loggers) :
    (Fire_deferred entry (Fire_swap entry w).2 w2).loggers = w.loggers := by
  unfold Fire_swap at h ⊢
  cases hf : (w.loggers entry.Logger).Formatter with
  | text p =>
    rw [hf] at h
    simp only [hf, Fire_deferred, World.setLoggerFormatter] at h ⊢
    rw [h]
    simp only [Function.update_same, Function.update_idem]
    have hl : ({ w.loggers entry.Logger with Formatter := Formatter.text p } : Logger)
        = w.loggers entry.Logger := by
      rw [← hf]
    rw [hl, Function.update_eq_self]
  | other k =>
    rw [hf] at h
    simp only [hf, Fire_deferred] at h ⊢
    exact h

/-- The three ways `Fire` ends, by the result of rendering and of the write. -/
theorem Fire_cases (env : Env) (hook : Logentries) (entry : Entry) (w : World) :
    (∃ e, Fire_rendered env entry w = .error e ∧
        (Logentries.Fire env hook entry w).err = some e ∧
        (Logentries.Fire env hook entry w).world.wire = w.wire) ∨
    (∃ m, Fire_rendered env entry w = .ok m ∧
        (Logentries.Fire env hook entry w).err
          = (env.Write w.wire hook.udpConn (hook.token ++ " " ++ m)).2 ∧
        (Logentries.Fire env hook entry w).world.wire
          = w.wire ++ [{ conn := hook.udpConn, payload := hook.token ++ " " ++ m }]) := by
  unfold Fire_rendered Logentries.Fire
  cases hr : Entry.String env (Fire_swap entry w).1 entry with
  | error e =>
    left
    refine ⟨e, rfl, ?_, ?_⟩
    · simp only [hr]
    · simp only [hr, Fire_deferred_wire, Fire_swap_wire]
  | ok m =>
    right
    refine ⟨m, rfl, ?_, ?_⟩
    · simp only [hr, Fire_swap_wire]
      cases hw : (env.Write w.wire hook.udpConn (hook.token ++ " " ++ m)).2 <;> simp only [hw]
    · simp only [hr, Fire_swap_wire]
      cases hw : (env.Write w.wire hook.udpConn (hook.token ++ " " ++ m)).2 <;>
        simp only [hw, Fire_deferred_wire, Fire_swap_wire]

theorem Fire_hook (env : Env) (hook : Logentries) (entry : Entry) (w : World) :
    (Logentries.Fire env hook entry w).hook = hook := by
  unfold Logentries.Fire
  dsimp only
  split
  · rfl
  · split <;> rfl

theorem Fire_world_heap (env : Env) (hook : Logentries) (entry : Entry) (w : World) :
    (Logentries.Fire env hook entry w).world.heap = w.heap := by
  unfold Logentries.Fire
  dsimp only
  split
  · simp only [Fire_deferred_heap, Fire_swap_heap]
  · split <;> simp only [Fire_deferred_heap, Fire_swap_heap]

theorem Fire_world_loggers (env : Env) (hook : Logentries) (entry : Entry) (w : World) :
    (Logentries.Fire env hook entry w).world.loggers = w.loggers := by
  unfold Logentries.Fire
  dsimp only
  split
  · exact Fire_deferred_swap_loggers entry w _ rfl
  · split <;> exact Fire_deferred_swap_loggers entry w _ rfl

theorem Fire_world_dials (env : Env) (hook : Logentries) (entry : Entry) (w : World) :
    (Logentries.Fire env hook entry w).world.dials = w.dials := by
  unfold Logentries.Fire
  dsimp only
  split
  · simp only [Fire_deferred_dials, Fire_swap_dials]
  · split <;> simp only [Fire_deferred_dials, Fire_swap_dials]

/-! ## The claims -/

/-- C1: when the rendering that `Fire` performs succeeds with text `m`, `Fire`
makes exactly one `Write` call, on the hook's connection, and the bytes passed
are the token, one space and `m`. -/
theorem Fire_writes_token_space_text (env : Env) (hook : Logentries) (entry : Entry)
    (w : World) (m : String) (h : Fire_rendered env entry w = .ok m) :
    (Logentries.Fire env hook entry w).world.wire
      = w.wire ++ [{ conn := hook.udpConn, payload := hook.token ++ " " ++ m }] := by
  rcases Fire_cases env hook entry w with ⟨e, he, _, _⟩ | ⟨m1, hm, _, hw⟩
  · rw [h] at he
    cases he
  · rw [h] at hm
    cases hm
    exact hw

/-- The scenario of C1: token `abc123` and the text `level=info msg=started`
give the one payload `abc123 level=info msg=started`. -/
theorem Fire_writes_token_space_text_witness :
    Fire_rendered sampleEnv sampleEntry sampleWorld = .ok "level=info msg=started" ∧
    (Logentries.Fire sampleEnv sampleHook sampleEntry sampleWorld).world.wire
      = [{ conn := 7, payload := "abc123 level=info msg=started" }] :=
  ⟨rfl, Fire_writes_token_space_text sampleEnv sampleHook sampleEntry sampleWorld
    "level=info msg=started" rfl⟩

/-- C2: however `Fire` returns, the logger of the record holds the formatter it
held before the call, and no formatter object has changed; indeed no logger
and no text formatter object of the store has changed. -/
theorem Fire_restores_formatter (env : Env) (hook : Logentries) (entry : Entry) (w : World) :
    ((Logentries.Fire env hook entry w).world.loggers entry.Logger).Formatter
        = (w.loggers entry.Logger).Formatter ∧
    (Logentries.Fire env hook entry w).world.heap = w.heap ∧
    (Logentries.Fire env hook entry w).world.loggers = w.loggers := by
  refine ⟨?_, Fire_world_heap env hook entry w, Fire_world_loggers env hook entry w⟩
  rw [Fire_world_loggers]

/-- C4: when the rendering that `Fire` performs fails with error `e`, `Fire`
returns `e` and makes no `Write` call. -/
theorem Fire_render_failure (env : Env) (hook : Logentries) (entry : Entry)
    (w : World) (e : GoError) (h : Fire_rendered env entry w = .error e) :
    (Logentries.Fire env hook entry w).err = some e ∧
    (Logentries.Fire env hook entry w).world.wire = w.wire := by
  rcases Fire_cases env hook entry w with ⟨e1, he, hr, hw⟩ | ⟨m1, hm, _, _⟩
  · rw [h] at he
    cases he
    exact ⟨hr, hw⟩
  · rw [h] at hm
    cases hm

/-- The formatter `other 0` of the sample environment fails: `Fire` returns its
error and the wire stays empty. -/
theorem Fire_render_failure_witness :
    Fire_rendered sampleEnv sampleEntryFailing sampleWorld
        = .error { msg := "unsupported value" } ∧
    (Logentries.Fire sampleEnv sampleHook sampleEntryFailing sampleWorld).err
        = some { msg := "unsupported value" } ∧
    (Logentries.Fire sampleEnv sampleHook sampleEntryFailing sampleWorld).world.wire = [] :=
  ⟨rfl, Fire_render_failure sampleEnv sampleHook sampleEntryFailing sampleWorld
    { msg := "unsupported value" } rfl⟩

/-- C8: each of `Levels`, `Fire` and `SetFormatter` leaves the connection
handle and the token of the hook as they were. -/
theorem methods_keep_connection_and_token (env : Env) (hook : Logentries) (entry : Entry)
    (f : Formatter) (w : World) :
    ((Logentries.Levels hook).1.udpConn = hook.udpConn ∧
      (Logentries.Levels hook).1.token = hook.token) ∧
    ((Logentries.Fire env hook entry w).hook.udpConn = hook.udpConn ∧
      (Logentries.Fire env hook entry w).hook.token = hook.token) ∧
    ((Logentries.SetFormatter hook f w).1.udpConn = hook.udpConn ∧
      (Logentries.SetFormatter hook f w).1.token = hook.token) := by
  refine ⟨⟨rfl, rfl⟩, ⟨?_, ?_⟩, ?_⟩
  · rw [Fire_hook]
  · rw [Fire_hook]
  · cases f <;> exact ⟨rfl, rfl⟩

/-- C10: two hooks with the same token and the same connection, whatever their
stored formatters, make `Fire` return the same error and leave the same store
(the same writes, loggers, formatter objects and diagnostics). -/
theorem Fire_ignores_stored_formatter (env : Env) (h1 h2 : Logentries) (entry : Entry)
    (w : World) (ht : h1.token = h2.token) (hc : h1.udpConn = h2.udpConn) :
    (Logentries.Fire env h1 entry w).err = (Logentries.Fire env h2 entry w).err ∧
    (Logentries.Fire env h1 entry w).world = (Logentries.Fire env h2 entry w).world := by
  unfold Logentries.Fire
  simp only [ht, hc]
  split
  · exact ⟨rfl, rfl⟩
  · split <;> exact ⟨rfl, rfl⟩

/-- A hook on which `SetFormatter` was called with the text formatter object at
`5` and a hook on which it was not: `Fire` cannot tell them apart. -/
theorem Fire_ignores_stored_formatter_witness :
    (Logentries.SetFormatter sampleHook (Formatter.text 5) sampleWorld).1.formatter
        ≠ sampleHook.formatter ∧
    (Logentries.Fire sampleEnv (Logentries.SetFormatter sampleHook (Formatter.text 5) sampleWorld).1
        sampleEntry (Logentries.SetFormatter sampleHook (Formatter.text 5) sampleWorld).2).err
      = (Logentries.Fire sampleEnv sampleHook sampleEntry
          (Logentries.SetFormatter sampleHook (Formatter.text 5) sampleWorld).2).err ∧
    (Logentries.Fire sampleEnv (Logentries.SetFormatter sampleHook (Formatter.text 5) sampleWorld).1
        sampleEntry (Logentries.SetFormatter sampleHook (Formatter.text 5) sampleWorld).2).world
      = (Logentries.Fire sampleEnv sampleHook sampleEntry
          (Logentries.SetFormatter sampleHook (Formatter.text 5) sampleWorld).2).world :=
  ⟨by decide, Fire_ignores_stored_formatter sampleEnv
    (Logentries.SetFormatter sampleHook (Formatter.text 5) sampleWorld).1 sampleHook sampleEntry
    (Logentries.SetFormatter sampleHook (Formatter.text 5) sampleWorld).2 rfl rfl⟩

/-- When the rendering succeeds with text `m`, `Fire` makes exactly one `Write`
call and returns the error of that call as it is; the number of bytes written
appears only in the message put on standard error when the error is not
`nil`. -/
theorem Fire_after_write (env : Env) (hook : Logentries) (entry : Entry)
    (w : World) (m : String) (h : Fire_rendered env entry w = .ok m) :
    (Logentries.Fire env hook entry w).err
      = (env.Write w.wire hook.udpConn (hook.token ++ " " ++ m)).2 ∧
    (Logentries.Fire env hook entry w).world.wire
      = w.wire ++ [{ conn := hook.udpConn, payload := hook.token ++ " " ++ m }] ∧
    (Logentries.Fire env hook entry w).world.diag
      = w.diag ++
        (match (env.Write w.wire hook.udpConn (hook.token ++ " " ++ m)).2 with
         | some e =>
           [Diag.stderr ("Unable to send log line to Papertrail via UDP. Wrote " ++
             toString (env.Write w.wire hook.udpConn (hook.token ++ " " ++ m)).1 ++
             " bytes before error: " ++ e.msg)]
         | none => []) := by
  unfold Fire_rendered at h
  unfold Logentries.Fire
  simp only [h, Fire_swap_wire, Fire_swap_diag]
  cases hw : (env.Write w.wire hook.udpConn (hook.token ++ " " ++ m)).2 <;>
    simp only [hw, Fire_deferred_wire, Fire_deferred_diag, List.append_nil, and_self]

/-- C3, as the code has it.  The record renders as `m`, and the write on the
hook's connection keeps the rule of `io.Writer` (`hwriter`).  If that write
fails or writes fewer bytes than the payload has (`hfail`), then it gave an
error `e`, and `Fire` returns `e` itself, makes that one write and no other,
and puts the number of bytes written in one message on standard error: the
count is in the message, not in the error returned. -/
theorem Fire_write_failure (env : Env) (hook : Logentries) (entry : Entry)
    (w : World) (m : String) (h : Fire_rendered env entry w = .ok m)
    (hwriter : ioWriterRule (hook.token ++ " " ++ m)
      (env.Write w.wire hook.udpConn (hook.token ++ " " ++ m)))
    (hfail : (env.Write w.wire hook.udpConn (hook.token ++ " " ++ m)).2 ≠ none ∨
      (env.Write w.wire hook.udpConn (hook.token ++ " " ++ m)).1
        < Int.ofNat (hook.token ++ " " ++ m).utf8ByteSize) :
    ∃ e, (env.Write w.wire hook.udpConn (hook.token ++ " " ++ m)).2 = some e ∧
      (Logentries.Fire env hook entry w).err = some e ∧
      (Logentries.Fire env hook entry w).world.wire
        = w.wire ++ [{ conn := hook.udpConn, payload := hook.token ++ " " ++ m }] ∧
      (Logentries.Fire env hook entry w).world.diag
        = w.diag ++
          [Diag.stderr ("Unable to send log line to Papertrail via UDP. Wrote " ++
            toString (env.Write w.wire hook.udpConn (hook.token ++ " " ++ m)).1 ++
            " bytes before error: " ++ e.msg)] := by
  have hne : (env.Write w.wire hook.udpConn (hook.token ++ " " ++ m)).2 ≠ none := by
    rcases hfail with hn | hlt
    · exact hn
    · exact hwriter hlt
  obtain ⟨herr, hwire, hdiag⟩ := Fire_after_write env hook entry w m h
  cases hw : (env.Write w.wire hook.udpConn (hook.token ++ " " ++ m)).2 with
  | none => exact absurd hw hne
  | some e =>
    rw [hw] at herr hdiag
    exact ⟨e, rfl, herr, hwire, hdiag⟩

/-- A write that fails after 5 of the 20 bytes of the payload: `Fire` returns
the connection's error, makes the one write and reports the 5 bytes on
standard error. -/
theorem Fire_write_failure_witness :
    Fire_rendered (sampleEnvWrite 5 (some { msg := "write: connection refused" }))
        sampleEntryShort sampleWorld = .ok "disk is full!" ∧
    ("abc123" ++ " " ++ "disk is full!").utf8ByteSize = 20 ∧
    ∃ e, (some { msg := "write: connection refused" } : Option GoError) = some e ∧
      (Logentries.Fire (sampleEnvWrite 5 (some { msg := "write: connection refused" }))
          sampleHook sampleEntryShort sampleWorld).err = some e ∧
      (Logentries.Fire (sampleEnvWrite 5 (some { msg := "write: connection refused" }))
          sampleHook sampleEntryShort sampleWorld).world.wire
        = [{ conn := 7, payload := "abc123 disk is full!" }] ∧
      (Logentries.Fire (sampleEnvWrite 5 (some { msg := "write: connection refused" }))
          sampleHook sampleEntryShort sampleWorld).world.diag
        = [Diag.stderr ("Unable to send log line to Papertrail via UDP. Wrote " ++
            toString (5 : Int) ++ " bytes before error: " ++ e.msg)] :=
  ⟨rfl, by decide,
   Fire_write_failure (sampleEnvWrite 5 (some { msg := "write: connection refused" }))
    sampleHook sampleEntryShort sampleWorld "disk is full!" rfl
    (fun _ => by decide) (Or.inl (by decide))⟩

/-- C3 fails as stated.  The payload has 20 bytes and the write fails with the
error `write: connection refused`, once after 5 bytes and once after 0 bytes.
`Fire` returns that error both times, the very same value, so nothing read off
the value returned gives 5 in the first run and 0 in the second: the error
returned does not carry the number of bytes written. -/
theorem Fire_error_without_count_counterexample :
    ("abc123" ++ " " ++ "disk is full!").utf8ByteSize = 20 ∧
    Fire_rendered (sampleEnvWrite 5 (some { msg := "write: connection refused" }))
        sampleEntryShort sampleWorld = .ok "disk is full!" ∧
    (Logentries.Fire (sampleEnvWrite 5 (some { msg := "write: connection refused" }))
        sampleHook sampleEntryShort sampleWorld).err
      = some { msg := "write: connection refused" } ∧
    (Logentries.Fire (sampleEnvWrite 0 (some { msg := "write: connection refused" }))
        sampleHook sampleEntryShort sampleWorld).err
      = some { msg := "write: connection refused" } ∧
    ¬ ∃ carried : Option GoError → Int,
        carried (Logentries.Fire (sampleEnvWrite 5 (some { msg := "write: connection refused" }))
          sampleHook sampleEntryShort sampleWorld).err = 5 ∧
        carried (Logentries.Fire (sampleEnvWrite 0 (some { msg := "write: connection refused" }))
          sampleHook sampleEntryShort sampleWorld).err = 0 := by
  refine ⟨by decide, rfl, rfl, rfl, ?_⟩
  rintro ⟨carried, h5, h0⟩
  have hsame :
      (Logentries.Fire (sampleEnvWrite 5 (some { msg := "write: connection refused" }))
        sampleHook sampleEntryShort sampleWorld).err
      = (Logentries.Fire (sampleEnvWrite 0 (some { msg := "write: connection refused" }))
        sampleHook sampleEntryShort sampleWorld).err := rfl
  rw [hsame, h0] at h5
  exact absurd h5 (by decide)

/-! ### The object of `txtFormatter` stays as the package allocated it -/

theorem initWorld_txtFormatter : initWorld.heap txtFormatter = txtFormatterObject := by
  simp [initWorld]

theorem SetFormatter_txtFormatter (hook : Logentries) (f : Formatter) (w : World)
    (h : w.heap txtFormatter = txtFormatterObject) :
    (Logentries.SetFormatter hook f w).2.heap txtFormatter = txtFormatterObject := by
  cases f with
  | text p =>
    simp only [Logentries.SetFormatter]
    by_cases hp : txtFormatter = p
    · subst hp
      rw [Function.update_same, h]
      rfl
    · rw [Function.update_noteq hp, h]
  | other k => exact h

theorem Fire_txtFormatter (env : Env) (hook : Logentries) (entry : Entry) (w : World)
    (h : w.heap txtFormatter = txtFormatterObject) :
    (Logentries.Fire env hook entry w).world.heap txtFormatter = txtFormatterObject := by
  rw [Fire_world_heap, h]

theorem NewLogentriesHook_txtFormatter (env : Env) (token : String) (w : World)
    (h : w.heap txtFormatter = txtFormatterObject) :
    (NewLogentriesHook env token w).world.heap txtFormatter = txtFormatterObject := by
  unfold NewLogentriesHook
  dsimp only
  split <;> exact h

/-- C5: the hook that `NewLogentriesHook` returns has the levels Panic, Fatal,
Error, Warn, Info, Debug: every severity occurs exactly once, a more severe
one before a less severe one, and `Levels` leaves the hook as it was. -/
theorem NewLogentriesHook_levels (env : Env) (token : String) (w : World) (hook : Logentries)
    (h : (NewLogentriesHook env token w).hook = some hook) :
    (Logentries.Levels hook).2
      = [Level.PanicLevel, Level.FatalLevel, Level.ErrorLevel,
         Level.WarnLevel, Level.InfoLevel, Level.DebugLevel] ∧
    (∀ l : Level, (Logentries.Levels hook).2.count l = 1) ∧
    List.Pairwise (fun a b => a.rank < b.rank) (Logentries.Levels hook).2 ∧
    (Logentries.Levels hook).1 = hook := by
  have hl : hook.levels = [Level.PanicLevel, Level.FatalLevel, Level.ErrorLevel,
      Level.WarnLevel, Level.InfoLevel, Level.DebugLevel] := by
    unfold NewLogentriesHook at h
    dsimp only at h
    split at h
    · cases h
    · cases h
      rfl
  refine ⟨hl, ?_, ?_, rfl⟩
  · intro l
    simp only [Logentries.Levels, hl]
    cases l <;> decide
  · simp only [Logentries.Levels, hl]
    decide

/-- In the sample environment the dial succeeds and the hook for `abc123` is
the sample hook. -/
theorem NewLogentriesHook_levels_witness :
    (NewLogentriesHook sampleEnv "abc123" initWorld).hook = some sampleHook ∧
    ((Logentries.Levels sampleHook).2
      = [Level.PanicLevel, Level.FatalLevel, Level.ErrorLevel,
         Level.WarnLevel, Level.InfoLevel, Level.DebugLevel] ∧
    (∀ l : Level, (Logentries.Levels sampleHook).2.count l = 1) ∧
    List.Pairwise (fun a b => a.rank < b.rank) (Logentries.Levels sampleHook).2 ∧
    (Logentries.Levels sampleHook).1 = sampleHook) :=
  ⟨rfl, NewLogentriesHook_levels sampleEnv "abc123" initWorld sampleHook rfl⟩

/-- C7: `NewLogentriesHook` dials `udp` to `data.logentries.com:10000` once; when
the dial fails with `e` it returns no hook and `e`, and when the dial gives the
connection `c` it returns, with no error, a hook that holds the token given
and `c`. -/
theorem NewLogentriesHook_result (env : Env) (token : String) (w : World) :
    (NewLogentriesHook env token w).world.dials
      = w.dials ++ [{ network := "udp", address := "data.logentries.com:10000" }] ∧
    (match env.Dial w.dials "udp" "data.logentries.com:10000" with
     | .error e =>
       (NewLogentriesHook env token w).hook = none ∧
       (NewLogentriesHook env token w).err = some e
     | .ok c =>
       (NewLogentriesHook env token w).err = none ∧
       ∃ hook, (NewLogentriesHook env token w).hook = some hook ∧
         hook.token = token ∧ hook.udpConn = c) := by
  unfold NewLogentriesHook
  dsimp only
  cases hd : env.Dial w.dials "udp" "data.logentries.com:10000" with
  | error e => exact ⟨rfl, rfl, rfl⟩
  | ok c => exact ⟨rfl, rfl, _, rfl, rfl, rfl⟩

/-- C9: in a store where the object of `txtFormatter` is as the package
allocated it (colours disabled), what `Fire` renders is the output of that
object when the logger of the record holds a text formatter, and the output of
the logger's own formatter otherwise; that text is what `Fire` sends after the
token, and that error is what `Fire` returns. -/
theorem Fire_renders_with (env : Env) (hook : Logentries) (entry : Entry) (w : World)
    (hobj : w.heap txtFormatter = txtFormatterObject) :
    txtFormatterObject.DisableColors = true ∧
    Fire_rendered env entry w
      = (match (w.loggers entry.Logger).Formatter with
         | .text _ => env.textFormat txtFormatterObject entry
         | .other k => env.otherFormat k entry) ∧
    (match (match (w.loggers entry.Logger).Formatter with
            | .text _ => env.textFormat txtFormatterObject entry
            | .other k => env.otherFormat k entry) with
     | .ok m =>
       (Logentries.Fire env hook entry w).world.wire
         = w.wire ++ [{ conn := hook.udpConn, payload := hook.token ++ " " ++ m }]
     | .error e =>
       (Logentries.Fire env hook entry w).err = some e ∧
       (Logentries.Fire env hook entry w).world.wire = w.wire) := by
  have hr : Fire_rendered env entry w
      = (match (w.loggers entry.Logger).Formatter with
         | .text _ => env.textFormat txtFormatterObject entry
         | .other k => env.otherFormat k entry) := by
    unfold Fire_rendered Entry.String Fire_swap
    cases hf : (w.loggers entry.Logger).Formatter with
    | text p =>
      simp only [World.setLoggerFormatter, Function.update_same, Formatter.Format, hobj]
    | other k =>
      simp only [hf, Formatter.Format]
  refine ⟨rfl, hr, ?_⟩
  rw [← hr]
  rcases Fire_cases env hook entry w with ⟨e, he, her, hw⟩ | ⟨m, hm, _, hw⟩
  · rw [he]
    exact ⟨her, hw⟩
  · rw [hm]
    exact hw

/-- The logger at `0` of the sample store holds a text formatter with colours
enabled; `Fire` renders without colours, with the object of `txtFormatter`. -/
theorem Fire_renders_with_witness :
    sampleWorld.heap txtFormatter = txtFormatterObject ∧
    (sampleWorld.heap 1).DisableColors = false ∧
    (txtFormatterObject.DisableColors = true ∧
    Fire_rendered sampleEnv sampleEntry sampleWorld
      = (match (sampleWorld.loggers sampleEntry.Logger).Formatter with
         | .text _ => sampleEnv.textFormat txtFormatterObject sampleEntry
         | .other k => sampleEnv.otherFormat k sampleEntry) ∧
    (match (match (sampleWorld.loggers sampleEntry.Logger).Formatter with
            | .text _ => sampleEnv.textFormat txtFormatterObject sampleEntry
            | .other k => sampleEnv.otherFormat k sampleEntry) with
     | .ok m =>
       (Logentries.Fire sampleEnv sampleHook sampleEntry sampleWorld).world.wire
         = sampleWorld.wire ++
           [{ conn := sampleHook.udpConn, payload := sampleHook.token ++ " " ++ m }]
     | .error e =>
       (Logentries.Fire sampleEnv sampleHook sampleEntry sampleWorld).err = some e ∧
       (Logentries.Fire sampleEnv sampleHook sampleEntry sampleWorld).world.wire
         = sampleWorld.wire)) :=
  ⟨rfl, rfl, Fire_renders_with sampleEnv sampleHook sampleEntry sampleWorld rfl⟩

/-- C6, as the code has it: after `SetFormatter(f)` the hook stores `f`, and a
text formatter `f` has `DisableColors` set with its other options as before;
token, levels, lock and connection of the hook are unchanged; every logger
still holds the formatter it held, nothing is written or dialled, and no text
formatter object other than `f` changes, so that the formatter of a logger is
as before whenever the logger does not hold `f` itself. -/
theorem SetFormatter_effect (hook : Logentries) (f : Formatter) (w : World) :
    (Logentries.SetFormatter hook f w).1.formatter = f ∧
    (∀ p, f = Formatter.text p →
      (Logentries.SetFormatter hook f w).2.heap p = { w.heap p with DisableColors := true }) ∧
    ((Logentries.SetFormatter hook f w).1.token = hook.token ∧
      (Logentries.SetFormatter hook f w).1.levels = hook.levels ∧
      (Logentries.SetFormatter hook f w).1.lock = hook.lock ∧
      (Logentries.SetFormatter hook f w).1.udpConn = hook.udpConn) ∧
    ((Logentries.SetFormatter hook f w).2.loggers = w.loggers ∧
      (Logentries.SetFormatter hook f w).2.wire = w.wire ∧
      (Logentries.SetFormatter hook f w).2.diag = w.diag ∧
      (Logentries.SetFormatter hook f w).2.dials = w.dials) ∧
    (∀ q, f ≠ Formatter.text q → (Logentries.SetFormatter hook f w).2.heap q = w.heap q) ∧
    (∀ l, (w.loggers l).Formatter ≠ f →
      (Logentries.SetFormatter hook f w).2.loggerFormatterOptions l
        = w.loggerFormatterOptions l) := by
  cases f with
  | text p =>
    refine ⟨rfl, ?_, ⟨rfl, rfl, rfl, rfl⟩, ⟨rfl, rfl, rfl, rfl⟩, ?_, ?_⟩
    · intro p1 hp
      cases hp
      simp only [Logentries.SetFormatter, Function.update_same]
    · intro q hq
      have hqp : q ≠ p := fun hqp => hq (by rw [hqp])
      simp only [Logentries.SetFormatter, Function.update_noteq hqp]
    · intro l hl
      simp only [World.loggerFormatterOptions, Logentries.SetFormatter]
      cases hf : (w.loggers l).Formatter with
      | text q =>
        have hqp : q ≠ p := fun hqp => hl (by rw [hf, hqp])
        simp only [Function.update_noteq hqp]
      | other k => rfl
  | other k =>
    refine ⟨rfl, ?_, ⟨rfl, rfl, rfl, rfl⟩, ⟨rfl, rfl, rfl, rfl⟩, ?_, ?_⟩
    · intro p hp
      cases hp
    · intro q _
      rfl
    · intro l _
      rfl

/-- C6 fails as stated.  The logger at `0` of the sample store holds the text
formatter object at `1`, with colours enabled.  `SetFormatter` with that same
object leaves the logger holding it, but the object now has colours disabled,
and the logger's own rendering of a record has changed. -/
theorem SetFormatter_shared_formatter_counterexample :
    (sampleWorld.loggers 0).Formatter = Formatter.text 1 ∧
    ((Logentries.SetFormatter sampleHook (Formatter.text 1) sampleWorld).2.loggers 0).Formatter
      = Formatter.text 1 ∧
    (sampleWorld.loggerFormatterOptions 0).map (fun c => c.DisableColors) = some false ∧
    ((Logentries.SetFormatter sampleHook (Formatter.text 1) sampleWorld).2.loggerFormatterOptions 0).map
        (fun c => c.DisableColors) = some true ∧
    Entry.String sampleEnv sampleWorld sampleEntry = .ok "\x1b[36mINFO\x1b[0m started" ∧
    Entry.String sampleEnv (Logentries.SetFormatter sampleHook (Formatter.text 1) sampleWorld).2
        sampleEntry = .ok "level=info msg=started" ∧
    (Logentries.SetFormatter sampleHook (Formatter.text 1) sampleWorld).2.loggerFormatterOptions 0
      ≠ sampleWorld.loggerFormatterOptions 0 := by
  refine ⟨rfl, rfl, rfl, rfl, rfl, rfl, by decide⟩

/-- The sample hook is given the text formatter object at `5`, which no logger
of the sample store holds: the object has colours disabled afterwards, the
object at `1` is as before, and so is the formatter of the logger at `0`. -/
theorem SetFormatter_effect_witness :
    (sampleWorld.loggers 0).Formatter ≠ Formatter.text 5 ∧
    (Logentries.SetFormatter sampleHook (Formatter.text 5) sampleWorld).2.heap 5
      = { sampleWorld.heap 5 with DisableColors := true } ∧
    (Logentries.SetFormatter sampleHook (Formatter.text 5) sampleWorld).2.heap 1
      = sampleWorld.heap 1 ∧
    (Logentries.SetFormatter sampleHook (Formatter.text 5) sampleWorld).2.loggerFormatterOptions 0
      = sampleWorld.loggerFormatterOptions 0 :=
  ⟨by decide,
   (SetFormatter_effect sampleHook (Formatter.text 5) sampleWorld).2.1 5 rfl,
   (SetFormatter_effect sampleHook (Formatter.text 5) sampleWorld).2.2.2.2.1 1 (by decide),
   (SetFormatter_effect sampleHook (Formatter.text 5) sampleWorld).2.2.2.2.2 0 (by decide)⟩

end LogrusLogentries
